import Mathlib

/-!
Shallow embedding of `sync-cloud-images.py` (a cloud-image mirroring tool).

Pure Python string functions are translated to Lean functions over `String`
(viewed through `String.data : List Char`).  Python dictionaries are modelled
as association lists whose lookup returns the most recent binding, which
matches `dict.__getitem__` after repeated assignments.  The filesystem seen by
`sync_release` (all paths live inside one release directory) is modelled as an
association list from file names to file contents.  Network effects
(`urlopen`) are modelled by an explicit environment `Env` supplying the result
of each manifest fetch and of each per-attempt artifact download, plus the
hash of a file content.  Fallible code returns `Except String`, carrying the
exact exception message built by the source.
-/

namespace SyncImages

/-- Python whitespace as used by `str.strip` and `str.split` with no
arguments: space, tab, newline, carriage return, vertical tab, form feed. -/
def isPyWS (c : Char) : Bool :=
  c == ' ' || c == '\t' || c == '\n' || c == '\r' || c == '\x0b' || c == '\x0c'

/-- Python `str.strip()` (both ends, default whitespace). -/
def pyStrip (s : String) : String :=
  String.mk (((s.data.dropWhile isPyWS).reverse.dropWhile isPyWS).reverse)

/-- Python `str.rstrip()` (right end, default whitespace). -/
def pyRstrip (s : String) : String :=
  String.mk ((s.data.reverse.dropWhile isPyWS).reverse)

/-- Is `pre` a prefix of `l` (character lists)? Used for `str.startswith`. -/
def isPre : List Char → List Char → Bool
  | [], _ => true
  | _ :: _, [] => false
  | a :: as, b :: bs => a == b && isPre as bs

/-- Python `s.startswith(pre)` for a string prefix. -/
def pyStarts (s pre : String) : Bool := isPre pre.data s.data

/-- Python `s.startswith(q)` for a single character. -/
def pyStarts1 (s : String) (q : Char) : Bool := isPre [q] s.data

/-- Last element of a character list, if any. -/
def lastChar? : List Char → Option Char
  | [] => none
  | [c] => some c
  | _ :: c :: t => lastChar? (c :: t)

/-- Python `s.endswith(q)` for a single character: the last character is `q`. -/
def pyEnds1 (s : String) (q : Char) : Bool :=
  match lastChar? s.data with
  | some c => q == c
  | none => false

/-- Is `needle` a contiguous substring of `hay`? Python `needle in hay`. -/
def hasSub (needle : List Char) : List Char → Bool
  | [] => needle.isEmpty
  | c :: t => isPre needle (c :: t) || hasSub needle t

/-- Python `needle in hay` on strings. -/
def pyIn (needle hay : String) : Bool := hasSub needle.data hay.data

/-- Python `str.lower()` (ASCII-relevant part, as used on hex digests and
algorithm names). -/
def lowerStr (s : String) : String := String.mk (s.data.map Char.toLower)

/-- Python `str.splitlines()` restricted to the separators that occur in this
program: a newline, a carriage return, or the pair of both. -/
def splitLinesAux : List Char → List Char → List String
  | [], acc => if acc.isEmpty then [] else [String.mk acc.reverse]
  | '\r' :: '\n' :: rest, acc => String.mk acc.reverse :: splitLinesAux rest []
  | '\n' :: rest, acc => String.mk acc.reverse :: splitLinesAux rest []
  | '\r' :: rest, acc => String.mk acc.reverse :: splitLinesAux rest []
  | c :: rest, acc => splitLinesAux rest (c :: acc)

/-- Python `text.splitlines()`. -/
def splitLines (s : String) : List String := splitLinesAux s.data []

/-- Python `str.split()` with no separator: split on runs of whitespace,
dropping empty fields. -/
def pySplitAux : List Char → List Char → List String
  | [], acc => if acc.isEmpty then [] else [String.mk acc.reverse]
  | c :: rest, acc =>
    if isPyWS c then
      if acc.isEmpty then pySplitAux rest []
      else String.mk acc.reverse :: pySplitAux rest []
    else pySplitAux rest (c :: acc)

/-- Python `line.split()`. -/
def pySplit (s : String) : List String := pySplitAux s.data []

/-- Python `"sep".join(parts)`. -/
def pyJoin (sep : String) : List String → String
  | [] => ""
  | p :: rest => rest.foldl (fun acc q => acc ++ sep ++ q) p

/-- Python `s.rstrip("/")`: drop trailing slash characters. -/
def rstripSlash (s : String) : String :=
  String.mk ((s.data.reverse.dropWhile (fun c => c == '/')).reverse)

/-- Python `s.strip("/")`: drop slash characters at both ends. -/
def stripSlash (s : String) : String :=
  String.mk (((s.data.dropWhile (fun c => c == '/')).reverse.dropWhile
    (fun c => c == '/')).reverse)

/-- A single quote character, used when reproducing source error messages. -/
def sq : String := String.mk ['\'']

/-- `strip_comments` from the source: remove a `#` comment unless the marker
occurs inside a single- or double-quoted span (the two quote states are
tracked independently, exactly as in the source loop). -/
def stripCommentsAux : List Char → Bool → Bool → List Char
  | [], _, _ => []
  | c :: rest, inS, inD =>
    if c == '\'' && !inD then c :: stripCommentsAux rest (!inS) inD
    else if c == '"' && !inS then c :: stripCommentsAux rest inS (!inD)
    else if c == '#' && !inS && !inD then []
    else c :: stripCommentsAux rest inS inD

/-- `strip_comments(line)` from the source. -/
def strip_comments (line : String) : String :=
  String.mk (stripCommentsAux line.data false false)

/-- Result of `parse_scalar`: Python returns either a string or a bool. -/
inductive ScalarV where
  | str (s : String)
  | bool (b : Bool)
deriving DecidableEq, Repr

/-- `parse_scalar(value)` from the source: strip, return the inner text when
the first character is one of the two quotes and the last character is one of
the two quotes (Python `startswith(("'", '"')) and endswith(("'", '"'))` on a
tuple accepts either quote at either end), else a case-insensitive boolean,
else the stripped text. -/
def parse_scalar (v : String) : ScalarV :=
  let value := pyStrip v
  if value = "" then ScalarV.str ""
  else if (pyStarts1 value '\'' || pyStarts1 value '"')
      && (pyEnds1 value '\'' || pyEnds1 value '"') then
    ScalarV.str (String.mk (value.data.drop 1).dropLast)
  else
    let lowered := lowerStr value
    if lowered = "true" then ScalarV.bool true
    else if lowered = "false" then ScalarV.bool false
    else ScalarV.str value

/-- One token of `tokenize_yaml`: indent width, stripped content, line number. -/
abbrev Tok := Nat × String × Nat

/-- The per-line loop of `tokenize_yaml(text)`, carrying the 1-based line
number.  `indent` is `len(line) - len(line.lstrip(" "))` and the guard is the
source condition `indent and line[:indent].count(" ") != indent`. -/
def tokLines : List String → Nat → Except String (List Tok)
  | [], _ => Except.ok []
  | raw :: rest, n =>
    let line := pyRstrip (strip_comments raw)
    if pyStrip line = "" then tokLines rest (n + 1)
    else
      let indent := line.data.length - (line.data.dropWhile (fun c => c == ' ')).length
      if indent ≠ 0 ∧ (line.data.take indent).count ' ' ≠ indent then
        Except.error ("Invalid indentation on line " ++ toString n)
      else
        match tokLines rest (n + 1) with
        | Except.error e => Except.error e
        | Except.ok toks => Except.ok ((indent, pyStrip line, n) :: toks)

/-- `tokenize_yaml(text)` from the source. -/
def tokenize_yaml (text : String) : Except String (List Tok) :=
  tokLines (splitLines text) 1

/-- Python dictionary with string keys and values, as an association list;
the most recent binding for a key wins on lookup. -/
abbrev Dict := List (String × String)

/-- Dictionary lookup (`d.get(k)` / `k in d`): the most recent binding. -/
def dictGet? : Dict → String → Option String
  | [], _ => none
  | (k1, v) :: t, k => if k1 == k then some v else dictGet? t k

/-- Dictionary assignment `d[k] = v`: the new binding shadows older ones. -/
def dictInsert (m : Dict) (k v : String) : Dict := (k, v) :: m

/-- The body of the `parse_checksums` loop for one raw manifest line. -/
def checksumStep (m : Dict) (raw : String) : Dict :=
  let line := pyStrip raw
  if line = "" || pyStarts line "#" then m
  else
    let parts := pySplit line
    if parts.length < 2 then m
    else
      let digest := parts.headD ""
      let f0 := parts.getLastD ""
      let filename :=
        if pyStarts f0 "*" || pyStarts f0 "." then
          String.mk (f0.data.dropWhile (fun c => c == '*'))
        else f0
      dictInsert m filename digest

/-- `parse_checksums(checksum_text)` from the source. -/
def parse_checksums (text : String) : Dict :=
  (splitLines text).foldl checksumStep []

/-- `detect_hash_algorithm(checksum_file)` from the source: first
case-insensitive substring match among the five algorithm names, else a
`SyncError` message. -/
def detect_hash_algorithm (checksum_file : String) : Except String String :=
  let lowered := lowerStr checksum_file
  if pyIn "sha512" lowered then Except.ok "sha512"
  else if pyIn "sha384" lowered then Except.ok "sha384"
  else if pyIn "sha256" lowered then Except.ok "sha256"
  else if pyIn "sha1" lowered then Except.ok "sha1"
  else if pyIn "md5" lowered then Except.ok "md5"
  else Except.error
    ("Cannot determine hash algorithm from checksum file " ++ sq ++ checksum_file ++ sq)

/-- The filesystem state of one release directory: file name to content.
All files touched by `sync_release` live in this one directory. -/
abbrev FS := List (String × String)

/-- Content of a file, if it exists. -/
def fsGet? : FS → String → Option String
  | [], _ => none
  | (k1, v) :: t, k => if k1 == k then some v else fsGet? t k

/-- Delete a file (`Path.unlink(missing_ok=True)`). -/
def fsErase (fs : FS) (k : String) : FS := fs.filter (fun p => !(p.1 == k))

/-- Create or atomically replace a file with the given content. -/
def fsSet (fs : FS) (k v : String) : FS := (k, v) :: fsErase fs k

/-- The external world: result of `fetch_text` per URL, result of the
download inside `download_file` per URL and per attempt number (the error
string is the text of the underlying exception), and the hex digest
`calculate_digest` computes for an algorithm and a file content. -/
structure Env where
  fetch : String → Except String String
  download : String → Nat → Except String String
  digest : String → String → String

/-- `ReleaseContext` from the source. -/
structure ReleaseContext where
  distro : String
  release : String
  base_url : String
  release_url : String
  checksum_file : String
  artifacts : List String
  images_root : String

/-- `ReleaseContext.checksum_url`: join the right-stripped base URL, the
stripped release, the stripped release URL segment and the checksum filename
with a slash, keeping only non-empty parts. -/
def checksum_url (ctx : ReleaseContext) : String :=
  pyJoin "/" (([rstripSlash ctx.base_url, stripSlash ctx.release,
    stripSlash ctx.release_url, ctx.checksum_file]).filter (fun p => p != ""))

/-- `ReleaseContext.artifact_url`: the same four parts joined with a slash,
with no filtering of empty parts (this is what the source does). -/
def artifact_url (ctx : ReleaseContext) (artifact : String) : String :=
  pyJoin "/" [rstripSlash ctx.base_url, stripSlash ctx.release,
    stripSlash ctx.release_url, artifact]

/-- The `SyncError` message of `fetch_text` and `download_file`. -/
def fetchFailMsg (url exc : String) : String :=
  "Failed to download " ++ url ++ ": " ++ exc

/-- The `SyncError` message for a digest mismatch. -/
def mismatchMsg (artifact expected actual : String) : String :=
  "Checksum mismatch for " ++ artifact ++ " (expected " ++ expected
    ++ ", got " ++ actual ++ ")"

/-- The `SyncError` message raised when the attempt budget is exhausted. -/
def exhaustMsg (distro release artifact : String) (attempts : Nat)
    (inner : String) : String :=
  distro ++ "/" ++ release ++ ": failed to download " ++ artifact ++ " after "
    ++ toString attempts ++ " attempts (" ++ inner ++ ")"

/-- The `SyncError` message for configured artifacts absent from the manifest. -/
def missingMsg (distro release : String) (missing : List String) : String :=
  distro ++ "/" ++ release ++ ": checksum file missing entries for "
    ++ pyJoin ", " missing

/-- The `for attempt in range(1, attempts + 1)` loop of `sync_release` for a
single artifact.  The fuel argument counts the iterations still to run, so the
current attempt number is `attempts - fuel + 1`; the call sites use
`fuel = attempts`.  A successful `download_file` atomically replaces the
destination file with the downloaded content before the digest is checked; on
a failure inside the budget the destination is unlinked before the retry; on
the budget-exhausting attempt the source raises before any unlink.  The trace
component records one entry per started download attempt. -/
def runAttempts (env : Env) (algo expected url artifact : String)
    (ctx : ReleaseContext) (attempts : Nat) :
    Nat → FS → List String → Except String Unit × FS × List String
  | 0, fs, tr => (Except.ok (), fs, tr)
  | Nat.succ fuel, fs, tr =>
    let attempt := attempts - fuel
    let tr2 := tr ++ [artifact]
    match env.download url attempt with
    | Except.error exc =>
      if attempts ≤ attempt then
        (Except.error (exhaustMsg ctx.distro ctx.release artifact attempts
          (fetchFailMsg url exc)), fs, tr2)
      else
        runAttempts env algo expected url artifact ctx attempts fuel
          (fsErase fs artifact) tr2
    | Except.ok content =>
      let fs2 := fsSet fs artifact content
      let actual := env.digest algo content
      if lowerStr actual ≠ expected then
        if attempts ≤ attempt then
          (Except.error (exhaustMsg ctx.distro ctx.release artifact attempts
            (mismatchMsg artifact expected actual)), fs2, tr2)
        else
          runAttempts env algo expected url artifact ctx attempts fuel
            (fsErase fs2 artifact) tr2
      else (Except.ok (), fs2, tr2)

/-- The `for artifact in ctx.artifacts` loop of `sync_release`.  The expected
digest is `checksums[artifact].lower()`; a lookup failure is modelled as the
`KeyError` Python would raise (unreachable after the missing-entry check). -/
def syncArtifacts (env : Env) (algo : String) (checksums : Dict)
    (ctx : ReleaseContext) (attempts : Nat) :
    List String → FS → List String → Except String Unit × FS × List String
  | [], fs, tr => (Except.ok (), fs, tr)
  | a :: rest, fs, tr =>
    match dictGet? checksums a with
    | none => (Except.error ("KeyError: " ++ a), fs, tr)
    | some dg =>
      match runAttempts env algo (lowerStr dg) (artifact_url ctx a) a ctx
          attempts attempts fs tr with
      | (Except.error e, fs2, tr2) => (Except.error e, fs2, tr2)
      | (Except.ok _, fs2, tr2) =>
        syncArtifacts env algo checksums ctx attempts rest fs2 tr2

/-- The commit and the artifact loop of `sync_release`, after the marker
comparison decided that a sync is needed: run the loop, then write the new
manifest text to `remote-checksum.tmp` and atomically rename it over
`remote-checksum`. -/
def syncDownloads (env : Env) (ctx : ReleaseContext) (attempts : Nat)
    (fs : FS) (text algo : String) : Except String Bool × FS × List String :=
  match syncArtifacts env algo (parse_checksums text) ctx attempts
      ctx.artifacts fs [] with
  | (Except.error e, fs2, tr) => (Except.error e, fs2, tr)
  | (Except.ok _, fs2, tr) =>
    (Except.ok true,
      fsSet (fsErase (fsSet fs2 "remote-checksum.tmp" text) "remote-checksum.tmp")
        "remote-checksum" text, tr)

/-- `sync_release` after the manifest text has been fetched and the hash
algorithm detected (`parse_checksums` is pure, so evaluating it at its use
sites is observationally the order of the source): check for configured
artifacts missing from the manifest, then compare the marker file with the
fetched text, then download. -/
def syncWithAlgo (env : Env) (ctx : ReleaseContext) (attempts : Nat)
    (fs : FS) (text algo : String) : Except String Bool × FS × List String :=
  let missing := ctx.artifacts.filter
    (fun a => (dictGet? (parse_checksums text) a).isNone)
  if missing = [] then
    if fsGet? fs "remote-checksum" = some text then (Except.ok false, fs, [])
    else syncDownloads env ctx attempts fs text algo
  else (Except.error (missingMsg ctx.distro ctx.release missing), fs, [])

/-- `sync_release` after the fetch: `detect_hash_algorithm` may raise. -/
def syncAfterFetch (env : Env) (ctx : ReleaseContext) (attempts : Nat)
    (fs : FS) (text : String) : Except String Bool × FS × List String :=
  match detect_hash_algorithm ctx.checksum_file with
  | Except.error e => (Except.error e, fs, [])
  | Except.ok algo => syncWithAlgo env ctx attempts fs text algo

/-- `sync_release(ctx, attempts)` from the source.  The result is the return
value (or the raised `SyncError` message), the final directory state, and the
list of started download attempts (one entry per call of `download_file`,
holding the artifact name). -/
def sync_release (env : Env) (ctx : ReleaseContext) (attempts : Nat)
    (fs : FS) : Except String Bool × FS × List String :=
  match env.fetch (checksum_url ctx) with
  | Except.error exc =>
    (Except.error (fetchFailMsg (checksum_url ctx) exc), fs, [])
  | Except.ok text => syncAfterFetch env ctx attempts fs text

/-! Definitions written from the words of the specification, for comparison
with the definitions translated from the source. -/

/-- URL join as the spec claims it for both URLs: every segment trimmed of
leading and trailing slashes, empty segments omitted. -/
def claimUrlJoin (segs : List String) : String :=
  pyJoin "/" ((segs.map stripSlash).filter (fun p => p != ""))

/-- Is the character one of the two quote characters? -/
def isQuote (c : Char) : Bool := ('\'' == c) || ('"' == c)

/-- Does the text start with a quote character? -/
def headQuote (l : List Char) : Bool :=
  match l.head? with
  | some c => isQuote c
  | none => false

/-- Does the text end with a quote character? -/
def lastQuote (l : List Char) : Bool :=
  match lastChar? l with
  | some c => isQuote c
  | none => false

/-- Scalar interpretation as the amended claim words it: trim; when the first
character is a quote character and the last character is a quote character
(not necessarily the same one), remove both verbatim; otherwise a
case-insensitive boolean; otherwise the trimmed text; empty gives the empty
string. -/
def scalarSpec (v : String) : ScalarV :=
  let t := pyStrip v
  if t.data = [] then ScalarV.str ""
  else if headQuote t.data && lastQuote t.data then
    ScalarV.str (String.mk (t.data.drop 1).dropLast)
  else if lowerStr t = "true" then ScalarV.bool true
  else if lowerStr t = "false" then ScalarV.bool false
  else ScalarV.str t

/-- Dropping every leading asterisk from a filename, as the amended claim
words the `*` handling of manifest lines. -/
def starStrip (f : String) : String :=
  String.mk (f.data.dropWhile (fun c => c == '*'))

/-! Concrete fixtures used by witnesses and counterexamples. -/

/-- A release context whose first artifact is named like the marker file. -/
def ctxMarkerArt : ReleaseContext :=
  { distro := "d", release := "r", base_url := "http://h", release_url := "",
    checksum_file := "SHA256SUMS", artifacts := ["remote-checksum", "b"],
    images_root := "/i" }

/-- Environment for `ctxMarkerArt`: the manifest lists both artifacts, the
first one downloads and verifies, the second one always fails to download. -/
def envMarkerArt : Env :=
  { fetch := fun _ => Except.ok "aa remote-checksum\nbb b\n",
    download := fun u _ =>
      if u = "http://h/r//remote-checksum" then Except.ok "C1content"
      else Except.error "boom",
    digest := fun _ c => if c = "C1content" then "aa" else "xx" }

/-- A plain single-artifact release context. -/
def ctxPlain : ReleaseContext :=
  { distro := "d", release := "r", base_url := "http://h", release_url := "",
    checksum_file := "SHA256SUMS", artifacts := ["a.img"], images_root := "/i" }

/-- Environment whose manifest fetch fails. -/
def envFetchDown : Env :=
  { fetch := fun _ => Except.error "down",
    download := fun _ _ => Except.error "down", digest := fun _ _ => "" }

/-- A release context whose checksum filename names no hash algorithm. -/
def ctxSums : ReleaseContext :=
  { distro := "d", release := "r", base_url := "http://h", release_url := "",
    checksum_file := "SUMS", artifacts := ["a"], images_root := "/i" }

/-- Environment returning the one-byte manifest text `T`. -/
def envTextT : Env :=
  { fetch := fun _ => Except.ok "T",
    download := fun _ _ => Except.error "x", digest := fun _ _ => "" }

/-- A directory whose marker file holds the text `T`. -/
def fsMarkerT : FS := [("remote-checksum", "T")]

/-- A release context matching `envManifestF`, artifact list `[f]`. -/
def ctxUpToDate : ReleaseContext :=
  { distro := "d", release := "r", base_url := "http://h", release_url := "",
    checksum_file := "SHA256SUMS", artifacts := ["f"], images_root := "/i" }

/-- Environment returning a manifest with an entry for `f`. -/
def envManifestF : Env :=
  { fetch := fun _ => Except.ok "aa f\n",
    download := fun _ _ => Except.error "x", digest := fun _ _ => "" }

/-- A directory whose marker already holds the manifest of `envManifestF`. -/
def fsMarkerF : FS := [("remote-checksum", "aa f\n")]

/-- Environment whose downloads always succeed with content that never
matches the expected digest. -/
def envBadDigest : Env :=
  { fetch := fun _ => Except.ok "",
    download := fun _ _ => Except.ok "X", digest := fun _ _ => "00" }

/-- A release context requiring an artifact the manifest will not contain. -/
def ctxMissing : ReleaseContext :=
  { distro := "d", release := "r", base_url := "http://h", release_url := "",
    checksum_file := "SHA256SUMS", artifacts := ["zzz.img"], images_root := "/i" }

/-- Like `ctxMissing`, but with a checksum filename naming no algorithm. -/
def ctxSumsMissing : ReleaseContext :=
  { distro := "d", release := "r", base_url := "http://h", release_url := "",
    checksum_file := "SUMS", artifacts := ["zzz.img"], images_root := "/i" }

/-- Environment returning an empty manifest. -/
def envEmptyManifest : Env :=
  { fetch := fun _ => Except.ok "",
    download := fun _ _ => Except.error "x", digest := fun _ _ => "" }

/-- The release context of the spec scenario A. -/
def ctxUrl : ReleaseContext :=
  { distro := "debian", release := "bookworm",
    base_url := "https://example.test/images", release_url := "",
    checksum_file := "SHA256SUMS", artifacts := ["disk.img"],
    images_root := "/i" }

/-- A single-artifact context for the retry scenarios. -/
def ctxOneA : ReleaseContext :=
  { distro := "d", release := "r", base_url := "http://h", release_url := "",
    checksum_file := "SHA256SUMS", artifacts := ["a"], images_root := "/i" }

/-- Environment where the manifest expects digest `ff` for `a`, the download
always delivers content `BAD`, and the digest of that content is `00`. -/
def envMismatch : Env :=
  { fetch := fun _ => Except.ok "ff a\n",
    download := fun _ _ => Except.ok "BAD", digest := fun _ _ => "00" }

/-! Basic lemmas about the store models. -/

theorem fsGet?_set_self (fs : FS) (k v : String) :
    fsGet? (fsSet fs k v) k = some v := by
  simp [fsGet?, fsSet]

theorem fsGet?_erase_ne (fs : FS) (k k' : String) (h : k' ≠ k) :
    fsGet? (fsErase fs k) k' = fsGet? fs k' := by
  induction fs with
  | nil => rfl
  | cons p t ih =>
    obtain ⟨k1, v1⟩ := p
    by_cases hp : k1 = k
    · have h1 : (k1 == k) = true := by simp [hp]
      have h2 : (k1 == k') = false := by simp [hp]; exact fun he => h he.symm
      simp [fsErase, fsGet?, List.filter_cons, h1, h2]
      simpa [fsErase] using ih
    · have h1 : (k1 == k) = false := by simp [hp]
      by_cases hq : k1 = k'
      · simp [fsErase, fsGet?, List.filter_cons, h1, hq, h]
      · have h2 : (k1 == k') = false := by simp [hq]
        simp [fsErase, fsGet?, List.filter_cons, h1, h2]
        simpa [fsErase] using ih

theorem fsGet?_set_ne (fs : FS) (k v k' : String) (h : k' ≠ k) :
    fsGet? (fsSet fs k v) k' = fsGet? fs k' := by
  have h1 : (k == k') = false := by simp; exact fun he => h he.symm
  simp [fsSet, fsGet?, h1]
  exact fsGet?_erase_ne fs k k' h

theorem fsGet?_erase_self (fs : FS) (k : String) :
    fsGet? (fsErase fs k) k = none := by
  induction fs with
  | nil => rfl
  | cons p t ih =>
    obtain ⟨k1, v1⟩ := p
    by_cases hp : k1 = k
    · have h1 : (k1 == k) = true := by simp [hp]
      simp [fsErase, List.filter_cons, h1]
      simpa [fsErase] using ih
    · have h1 : (k1 == k) = false := by simp [hp]
      simp [fsErase, fsGet?, List.filter_cons, h1]
      simpa [fsErase] using ih

theorem dictGet?_insert_self (m : Dict) (k v : String) :
    dictGet? (dictInsert m k v) k = some v := by
  simp [dictInsert, dictGet?]

theorem dictGet?_insert_ne (m : Dict) (k v k' : String) (h : k' ≠ k) :
    dictGet? (dictInsert m k v) k' = dictGet? m k' := by
  have h1 : (k == k') = false := by simp; exact fun he => h he.symm
  simp [dictInsert, dictGet?, h1]

/-! Lemmas about the tokenizer. -/

theorem dropWhile_len_le (p : Char → Bool) (l : List Char) :
    (l.dropWhile p).length ≤ l.length := by
  induction l with
  | nil => simp [List.dropWhile]
  | cons c t ih =>
    simp only [List.dropWhile]
    cases p c
    · simp
    · simp; omega

theorem take_count_space (l : List Char) :
    (l.take (l.length - (l.dropWhile (fun c => c == ' ')).length)).count ' '
      = l.length - (l.dropWhile (fun c => c == ' ')).length := by
  induction l with
  | nil => rfl
  | cons c t ih =>
    by_cases hc : c = ' '
    · subst hc
      have hd : (' ' :: t).dropWhile (fun c => c == ' ')
          = t.dropWhile (fun c => c == ' ') := by
        simp [List.dropWhile]
      rw [hd]
      have hle : (t.dropWhile (fun c => c == ' ')).length ≤ t.length :=
        dropWhile_len_le _ t
      have hs : (' ' :: t).length - (t.dropWhile (fun c => c == ' ')).length
          = (t.length - (t.dropWhile (fun c => c == ' ')).length) + 1 := by
        simp only [List.length_cons]
        omega
      rw [hs, List.take_succ_cons, List.count_cons_self, ih]
    · have hcb : (c == ' ') = false := by simp [hc]
      have hd : (c :: t).dropWhile (fun c => c == ' ') = c :: t := by
        simp [List.dropWhile, hcb]
      rw [hd]
      simp

theorem tokLines_never_fails (lines : List String) :
    ∀ n, ∃ toks, tokLines lines n = Except.ok toks := by
  induction lines with
  | nil => exact fun _ => ⟨[], rfl⟩
  | cons raw rest ih =>
    intro n
    obtain ⟨toks, htk⟩ := ih (n + 1)
    by_cases hb : pyStrip (pyRstrip (strip_comments raw)) = ""
    · refine ⟨toks, ?_⟩
      simp only [tokLines]
      rw [if_pos hb, htk]
    · have hguard : ¬ ((pyRstrip (strip_comments raw)).data.length
          - ((pyRstrip (strip_comments raw)).data.dropWhile
              (fun c => c == ' ')).length ≠ 0
        ∧ ((pyRstrip (strip_comments raw)).data.take
            ((pyRstrip (strip_comments raw)).data.length
              - ((pyRstrip (strip_comments raw)).data.dropWhile
                  (fun c => c == ' ')).length)).count ' '
            ≠ (pyRstrip (strip_comments raw)).data.length
              - ((pyRstrip (strip_comments raw)).data.dropWhile
                  (fun c => c == ' ')).length) := by
        intro hcontra
        exact hcontra.2 (take_count_space (pyRstrip (strip_comments raw)).data)
      refine ⟨((pyRstrip (strip_comments raw)).data.length
          - ((pyRstrip (strip_comments raw)).data.dropWhile
              (fun c => c == ' ')).length,
        pyStrip (pyRstrip (strip_comments raw)), n) :: toks, ?_⟩
      simp only [tokLines]
      rw [if_neg hb, if_neg hguard, htk]

/-- C6: the claim says a non-blank line whose leading whitespace is not
purely spaces (for example a tab-indented line) makes `tokenize_yaml` raise
a `ConfigError` naming the line.  The code never does: `indent` is the count
of leading spaces, so the slice `line[:indent]` is all spaces and the guard
`line[:indent].count(" ") != indent` is identically false; a tab-indented
line tokenizes silently with indent 0, and `tokenize_yaml` never raises at
all. -/
theorem c6_tab_indent_not_rejected :
    tokenize_yaml "\tfoo" = Except.ok [(0, "foo", 1)]
    ∧ ∀ text : String, ∃ toks, tokenize_yaml text = Except.ok toks := by
  constructor
  · rfl
  · intro text
    exact tokLines_never_fails (splitLines text) 1

/-! Lemmas about the checksum manifest parser. -/

theorem pySplit_empty : pySplit "" = [] := rfl

theorem starStrip_of_not_star (f : String) (h : pyStarts f "*" = false) :
    starStrip f = f := by
  cases hd : f.data with
  | nil =>
    have : f = "" := String.ext (by simp [hd])
    rw [this]
    rfl
  | cons c t =>
    have hb : ('*' == c) = false := by
      by_contra hcontra
      have hc : ('*' == c) = true := by
        cases hx : ('*' == c)
        · exact absurd hx hcontra
        · rfl
      have : c = '*' := (beq_iff_eq.mp hc).symm
      rw [pyStarts, hd, this] at h
      simp [isPre] at h
    have hb2 : (c == '*') = false := by
      by_contra hcontra
      have hc : (c == '*') = true := by
        cases hx : (c == '*')
        · exact absurd hx hcontra
        · rfl
      have : c = '*' := beq_iff_eq.mp hc
      rw [this] at hb
      simp at hb
    apply String.ext
    simp [starStrip, hd, List.dropWhile, hb2]

theorem checksumStep_short (m : Dict) (raw : String)
    (h : (pySplit (pyStrip raw)).length < 2) : checksumStep m raw = m := by
  simp only [checksumStep]
  by_cases hc : (decide (pyStrip raw = "") || pyStarts (pyStrip raw) "#") = true
  · rw [if_pos hc]
  · rw [if_neg hc, if_pos h]

theorem checksumStep_insert (m : Dict) (raw : String)
    (hsharp : pyStarts (pyStrip raw) "#" = false)
    (hlen : 2 ≤ (pySplit (pyStrip raw)).length) :
    checksumStep m raw
      = dictInsert m
          (if pyStarts ((pySplit (pyStrip raw)).getLastD "") "*"
              || pyStarts ((pySplit (pyStrip raw)).getLastD "") "." then
            starStrip ((pySplit (pyStrip raw)).getLastD "")
          else ((pySplit (pyStrip raw)).getLastD ""))
          ((pySplit (pyStrip raw)).headD "") := by
  have hblank : pyStrip raw ≠ "" := by
    intro hcontra
    rw [hcontra] at hlen
    simp [pySplit_empty] at hlen
  simp only [checksumStep]
  rw [if_neg (by simp [hblank, hsharp])]
  rw [if_neg (by omega)]
  rfl

theorem checksumStep_insert_star (m : Dict) (raw : String)
    (hsharp : pyStarts (pyStrip raw) "#" = false)
    (hlen : 2 ≤ (pySplit (pyStrip raw)).length) :
    checksumStep m raw
      = dictInsert m (starStrip ((pySplit (pyStrip raw)).getLastD ""))
          ((pySplit (pyStrip raw)).headD "") := by
  rw [checksumStep_insert m raw hsharp hlen]
  by_cases hstar : (pyStarts ((pySplit (pyStrip raw)).getLastD "") "*"
      || pyStarts ((pySplit (pyStrip raw)).getLastD "") ".") = true
  · rw [if_pos hstar]
  · rw [if_neg hstar]
    have hor : (pyStarts ((pySplit (pyStrip raw)).getLastD "") "*"
        || pyStarts ((pySplit (pyStrip raw)).getLastD "") ".") = false := by
      cases hab : (pyStarts ((pySplit (pyStrip raw)).getLastD "") "*"
          || pyStarts ((pySplit (pyStrip raw)).getLastD "") ".")
      · rfl
      · exact absurd hab hstar
    have hns : pyStarts ((pySplit (pyStrip raw)).getLastD "") "*" = false := by
      cases hx : pyStarts ((pySplit (pyStrip raw)).getLastD "") "*"
      · rfl
      · rw [hx] at hor
        simp at hor
    rw [starStrip_of_not_star _ hns]

/-- C7 counterexample: the claim says every digest value in the mapping
returned by `parse_checksums` is lowercase regardless of the case in the
manifest.  On the manifest line `ABCDEF disk.img`, the stored digest is the
verbatim `ABCDEF`, which is not lowercase. -/
theorem c7_digest_not_lowercased_cex :
    dictGet? (parse_checksums "ABCDEF disk.img") "disk.img" = some "ABCDEF"
    ∧ lowerStr "ABCDEF" ≠ "ABCDEF" := by
  constructor
  · rfl
  · decide

/-- C7 (amended): `parse_checksums` builds a filename-to-digest mapping from
lines `digest [*]filename`; blank lines and lines starting with `#` are
ignored; leading `*` characters of the filename are stripped; when a filename
recurs, the last line wins; digests are stored verbatim (the lowercasing
happens later, in `sync_release`, when the expected digest is compared). -/
theorem c7_parse_checksums_amended :
    (∀ (m : Dict) (raw : String),
      (pyStrip raw = "" ∨ pyStarts (pyStrip raw) "#" = true) →
      checksumStep m raw = m)
    ∧ (∀ (m : Dict) (raw : String),
        pyStarts (pyStrip raw) "#" = false →
        2 ≤ (pySplit (pyStrip raw)).length →
        checksumStep m raw
          = dictInsert m (starStrip ((pySplit (pyStrip raw)).getLastD ""))
              ((pySplit (pyStrip raw)).headD ""))
    ∧ (∀ (m : Dict) (k v : String),
        dictGet? (dictInsert m k v) k = some v
        ∧ ∀ k', k' ≠ k → dictGet? (dictInsert m k v) k' = dictGet? m k')
    ∧ dictGet? (parse_checksums "aaa f\nBBB f") "f" = some "BBB" := by
  refine ⟨?_, ?_, ?_, ?_⟩
  · intro m raw h
    simp only [checksumStep]
    rcases h with h | h
    · rw [if_pos (by simp [h])]
    · rw [if_pos (by simp [h])]
  · intro m raw hsharp hlen
    exact checksumStep_insert_star m raw hsharp hlen
  · intro m k v
    exact ⟨dictGet?_insert_self m k v, fun k' h => dictGet?_insert_ne m k v k' h⟩
  · rfl

/-- C7 witness: the amended theorem applied at concrete inputs: a comment
line is ignored, a `digest *name` line inserts the starred name stripped with
the digest verbatim, and the inserted binding is the one looked up. -/
theorem c7_parse_checksums_amended_witness :
    checksumStep [] "# note" = []
    ∧ checksumStep [] "DD *f.img" = dictInsert [] "f.img" "DD"
    ∧ dictGet? (dictInsert [] "f.img" "DD") "f.img" = some "DD" := by
  refine ⟨?_, ?_, ?_⟩
  · exact c7_parse_checksums_amended.1 [] "# note" (Or.inr rfl)
  · exact c7_parse_checksums_amended.2.1 [] "DD *f.img" rfl (by decide)
  · exact (c7_parse_checksums_amended.2.2.1 [] "f.img" "DD").1

/-- C10: `parse_checksums` splits each non-ignored line on runs of
whitespace; the first token is the digest and the last token the filename; a
line with fewer than two tokens is silently skipped (never an error); a
filename with internal whitespace is keyed by its last word only. -/
theorem c10_checksum_line_splitting :
    (∀ (m : Dict) (raw : String),
      (pySplit (pyStrip raw)).length < 2 → checksumStep m raw = m)
    ∧ (∀ (m : Dict) (raw : String),
        pyStarts (pyStrip raw) "#" = false →
        2 ≤ (pySplit (pyStrip raw)).length →
        dictGet? (checksumStep m raw)
            (starStrip ((pySplit (pyStrip raw)).getLastD ""))
          = some ((pySplit (pyStrip raw)).headD ""))
    ∧ (dictGet? (parse_checksums "abc my file.img") "file.img" = some "abc"
       ∧ dictGet? (parse_checksums "abc my file.img") "my file.img" = none)
    ∧ parse_checksums "deadbeef" = [] := by
  refine ⟨?_, ?_, ⟨rfl, rfl⟩, rfl⟩
  · intro m raw h
    exact checksumStep_short m raw h
  · intro m raw hsharp hlen
    rw [checksumStep_insert_star m raw hsharp hlen]
    exact dictGet?_insert_self _ _ _

/-- C10 witness: the theorem applied at concrete inputs: a one-token line
leaves the mapping unchanged, and a two-token line is keyed by its last
token with the first token as value. -/
theorem c10_checksum_line_splitting_witness :
    checksumStep [("x", "y")] "deadbeef" = [("x", "y")]
    ∧ dictGet? (checksumStep [] "dd ff") "ff" = some "dd" := by
  constructor
  · exact c10_checksum_line_splitting.1 [("x", "y")] "deadbeef" (by decide)
  · have h := c10_checksum_line_splitting.2.1 [] "dd ff" rfl (by decide)
    exact h

/-! Lemmas about the scalar interpreter. -/

theorem lastChar?_cons (c : Char) (rest : List Char) :
    ∃ lc, lastChar? (c :: rest) = some lc := by
  induction rest generalizing c with
  | nil => exact ⟨c, rfl⟩
  | cons d t ih => exact ih d

theorem mk_cons_ne_empty (c : Char) (l : List Char) :
    String.mk (c :: l) ≠ "" := by
  intro h
  have := congrArg String.data h
  simp at this

/-- C8 counterexample: the claim says quotes are removed only when the text
is wrapped in one matching quote pair, so a text opening with a single quote
and closing with a double quote is returned as is.  The source accepts either
quote character at either end, so that text is unquoted. -/
theorem c8_mismatched_quotes_unquoted_cex :
    parse_scalar (String.mk ['\'', 'a', 'b', 'c', '"']) = ScalarV.str "abc"
    ∧ ScalarV.str "abc" ≠ ScalarV.str (String.mk ['\'', 'a', 'b', 'c', '"']) := by
  constructor
  · rfl
  · decide

/-- C8 (amended): `parse_scalar` trims surrounding whitespace; when the
trimmed text starts with a quote character and ends with a quote character
(either of the two quote characters at either end, not necessarily a
matching pair) the two end characters are removed verbatim with no escape
processing, and only then; otherwise a case-insensitive true or false becomes
the corresponding boolean; any other text is returned trimmed; an empty
remainder yields the empty string.  This is stated as the pointwise equality
of the source translation with `scalarSpec`, the function written from the
amended words. -/
theorem c8_parse_scalar_amended : ∀ v, parse_scalar v = scalarSpec v := by
  intro v
  simp only [parse_scalar, scalarSpec]
  cases hd : (pyStrip v).data with
  | nil =>
    have he : pyStrip v = "" := String.ext (by simp [hd])
    rw [he]
    rfl
  | cons c rest =>
    have hs : pyStrip v = String.mk (c :: rest) := String.ext (by simp [hd])
    rw [hs]
    rw [if_neg (mk_cons_ne_empty c rest)]
    obtain ⟨lc, hlc⟩ := lastChar?_cons c rest
    have hstart : ∀ q : Char, pyStarts1 (String.mk (c :: rest)) q = (q == c) := by
      intro q
      simp [pyStarts1, isPre]
    have hend : ∀ q : Char, pyEnds1 (String.mk (c :: rest)) q = (q == lc) := by
      intro q
      simp [pyEnds1, hlc]
    have hlast : lastQuote (String.mk (c :: rest)).data = isQuote lc := by
      simp [lastQuote, hlc]
    rw [hstart, hstart, hend, hend]
    rw [if_neg (show ¬ (String.mk (c :: rest)).data = [] by simp)]
    rw [hlast]
    rfl

/-- C5 counterexample: the claim says both URLs are built by trimming every
segment of leading and trailing slashes and omitting empty segments, so an
empty release URL introduces no empty path component.  `artifact_url` does
not omit empty segments: with the empty release URL of scenario A it yields
a double slash, differing from the claimed join. -/
theorem c5_artifact_url_empty_segment_cex :
    artifact_url ctxUrl "disk.img"
      = "https://example.test/images/bookworm//disk.img"
    ∧ claimUrlJoin [ctxUrl.base_url, ctxUrl.release, ctxUrl.release_url,
        "disk.img"] = "https://example.test/images/bookworm/disk.img"
    ∧ artifact_url ctxUrl "disk.img"
      ≠ claimUrlJoin [ctxUrl.base_url, ctxUrl.release, ctxUrl.release_url,
          "disk.img"] := by
  refine ⟨rfl, rfl, ?_⟩
  decide

/-- C5 (amended): `checksum_url` joins the base URL trimmed of trailing
slashes only, the release and release URL trimmed of both leading and
trailing slashes, and the untrimmed checksum filename, omitting empty
segments; `artifact_url` joins the same four segments without omitting empty
ones, so an empty release URL yields an empty path component (a double
slash) in every artifact URL. -/
theorem c5_url_construction :
    (∀ (ctx : ReleaseContext) (a : String),
      artifact_url ctx a
        = rstripSlash ctx.base_url ++ "/" ++ stripSlash ctx.release ++ "/"
          ++ stripSlash ctx.release_url ++ "/" ++ a)
    ∧ (∀ (ctx : ReleaseContext) (a : String), ctx.release_url = "" →
        artifact_url ctx a
          = rstripSlash ctx.base_url ++ "/" ++ stripSlash ctx.release ++ "/"
            ++ "/" ++ a)
    ∧ (∀ ctx : ReleaseContext, stripSlash ctx.release_url = "" →
        rstripSlash ctx.base_url ≠ "" → stripSlash ctx.release ≠ "" →
        ctx.checksum_file ≠ "" →
        checksum_url ctx
          = rstripSlash ctx.base_url ++ "/" ++ stripSlash ctx.release ++ "/"
            ++ ctx.checksum_file) := by
  have part1 : ∀ (ctx : ReleaseContext) (a : String),
      artifact_url ctx a
        = rstripSlash ctx.base_url ++ "/" ++ stripSlash ctx.release ++ "/"
          ++ stripSlash ctx.release_url ++ "/" ++ a := by
    intro ctx a
    rfl
  refine ⟨part1, ?_, ?_⟩
  · intro ctx a h
    rw [part1 ctx a, h]
    rw [show stripSlash "" = "" from rfl]
    rw [String.append_empty]
  · intro ctx h hB hR hF
    simp only [checksum_url]
    rw [h]
    simp only [List.filter_cons, List.filter_nil, bne_iff_ne, ne_eq, hB, hR, hF,
      not_false_eq_true, if_true, if_pos, decide_not]
    simp [hB, hR, hF]
    rfl

/-- C5 witness: the amended theorem applied to the scenario A context, whose
release URL is empty: the artifact URL contains the double slash, the
checksum URL does not. -/
theorem c5_url_construction_witness :
    artifact_url ctxUrl "disk.img"
      = rstripSlash ctxUrl.base_url ++ "/" ++ stripSlash ctxUrl.release ++ "/"
        ++ "/" ++ "disk.img"
    ∧ checksum_url ctxUrl
      = rstripSlash ctxUrl.base_url ++ "/" ++ stripSlash ctxUrl.release ++ "/"
        ++ ctxUrl.checksum_file := by
  constructor
  · exact c5_url_construction.2.1 ctxUrl "disk.img" rfl
  · exact c5_url_construction.2.2 ctxUrl rfl (by decide) (by decide) (by decide)

/-! Step equations for the retry loop and the artifact loop. -/

theorem runAttempts_zero (env : Env) (algo expected url artifact : String)
    (ctx : ReleaseContext) (attempts : Nat) (fs : FS) (tr : List String) :
    runAttempts env algo expected url artifact ctx attempts 0 fs tr
      = (Except.ok (), fs, tr) := rfl

theorem runAttempts_succ_err (env : Env) (algo expected url artifact : String)
    (ctx : ReleaseContext) (attempts fuel : Nat) (fs : FS) (tr : List String)
    (exc : String) (hdl : env.download url (attempts - fuel) = Except.error exc) :
    runAttempts env algo expected url artifact ctx attempts (fuel + 1) fs tr
      = if attempts ≤ attempts - fuel then
          (Except.error (exhaustMsg ctx.distro ctx.release artifact attempts
            (fetchFailMsg url exc)), fs, tr ++ [artifact])
        else
          runAttempts env algo expected url artifact ctx attempts fuel
            (fsErase fs artifact) (tr ++ [artifact]) := by
  simp only [runAttempts]
  rw [hdl]

theorem runAttempts_succ_ok (env : Env) (algo expected url artifact : String)
    (ctx : ReleaseContext) (attempts fuel : Nat) (fs : FS) (tr : List String)
    (content : String)
    (hdl : env.download url (attempts - fuel) = Except.ok content) :
    runAttempts env algo expected url artifact ctx attempts (fuel + 1) fs tr
      = if lowerStr (env.digest algo content) ≠ expected then
          if attempts ≤ attempts - fuel then
            (Except.error (exhaustMsg ctx.distro ctx.release artifact attempts
              (mismatchMsg artifact expected (env.digest algo content))),
              fsSet fs artifact content, tr ++ [artifact])
          else
            runAttempts env algo expected url artifact ctx attempts fuel
              (fsErase (fsSet fs artifact content) artifact) (tr ++ [artifact])
        else (Except.ok (), fsSet fs artifact content, tr ++ [artifact]) := by
  simp only [runAttempts]
  rw [hdl]

theorem syncArtifacts_nil (env : Env) (algo : String) (checksums : Dict)
    (ctx : ReleaseContext) (attempts : Nat) (fs : FS) (tr : List String) :
    syncArtifacts env algo checksums ctx attempts [] fs tr
      = (Except.ok (), fs, tr) := rfl

theorem syncArtifacts_cons_none (env : Env) (algo : String) (checksums : Dict)
    (ctx : ReleaseContext) (attempts : Nat) (a : String) (rest : List String)
    (fs : FS) (tr : List String) (hdg : dictGet? checksums a = none) :
    syncArtifacts env algo checksums ctx attempts (a :: rest) fs tr
      = (Except.error ("KeyError: " ++ a), fs, tr) := by
  simp only [syncArtifacts]
  rw [hdg]

theorem syncArtifacts_cons_err (env : Env) (algo : String) (checksums : Dict)
    (ctx : ReleaseContext) (attempts : Nat) (a : String) (rest : List String)
    (fs : FS) (tr : List String) (dg e : String) (fsx : FS) (trx : List String)
    (hdg : dictGet? checksums a = some dg)
    (hr : runAttempts env algo (lowerStr dg) (artifact_url ctx a) a ctx attempts
      attempts fs tr = (Except.error e, fsx, trx)) :
    syncArtifacts env algo checksums ctx attempts (a :: rest) fs tr
      = (Except.error e, fsx, trx) := by
  simp only [syncArtifacts, hdg, hr]

theorem syncArtifacts_cons_ok (env : Env) (algo : String) (checksums : Dict)
    (ctx : ReleaseContext) (attempts : Nat) (a : String) (rest : List String)
    (fs : FS) (tr : List String) (dg : String) (u : Unit) (fsx : FS)
    (trx : List String) (hdg : dictGet? checksums a = some dg)
    (hr : runAttempts env algo (lowerStr dg) (artifact_url ctx a) a ctx attempts
      attempts fs tr = (Except.ok u, fsx, trx)) :
    syncArtifacts env algo checksums ctx attempts (a :: rest) fs tr
      = syncArtifacts env algo checksums ctx attempts rest fsx trx := by
  simp only [syncArtifacts, hdg, hr]

/-! Lemmas about the retry loop and the artifact loop. -/

theorem runAttempts_fs_other (env : Env) (algo expected url artifact : String)
    (ctx : ReleaseContext) (attempts : Nat) :
    ∀ (fuel : Nat) (fs : FS) (tr : List String) (k : String), k ≠ artifact →
    fsGet? ((runAttempts env algo expected url artifact ctx attempts fuel fs tr).2.1) k
      = fsGet? fs k := by
  intro fuel
  induction fuel with
  | zero =>
    intro fs tr k _
    rfl
  | succ fuel ih =>
    intro fs tr k hk
    rcases hdl : env.download url (attempts - fuel) with exc | content
    · rw [runAttempts_succ_err env algo expected url artifact ctx attempts fuel
        fs tr exc hdl]
      by_cases hle : attempts ≤ attempts - fuel
      · rw [if_pos hle]
      · rw [if_neg hle]
        rw [ih (fsErase fs artifact) (tr ++ [artifact]) k hk]
        exact fsGet?_erase_ne fs artifact k hk
    · rw [runAttempts_succ_ok env algo expected url artifact ctx attempts fuel
        fs tr content hdl]
      by_cases hne : lowerStr (env.digest algo content) ≠ expected
      · rw [if_pos hne]
        by_cases hle : attempts ≤ attempts - fuel
        · rw [if_pos hle]
          exact fsGet?_set_ne fs artifact content k hk
        · rw [if_neg hle]
          rw [ih (fsErase (fsSet fs artifact content) artifact)
            (tr ++ [artifact]) k hk]
          rw [fsGet?_erase_ne _ artifact k hk]
          exact fsGet?_set_ne fs artifact content k hk
      · rw [if_neg hne]
        exact fsGet?_set_ne fs artifact content k hk

theorem runAttempts_trace (env : Env) (algo expected url artifact : String)
    (ctx : ReleaseContext) (attempts : Nat) :
    ∀ (fuel : Nat) (fs : FS) (tr : List String),
    ∃ m, m ≤ fuel ∧ (runAttempts env algo expected url artifact ctx attempts
        fuel fs tr).2.2 = tr ++ List.replicate m artifact := by
  intro fuel
  induction fuel with
  | zero =>
    intro fs tr
    refine ⟨0, Nat.le_refl 0, ?_⟩
    rw [runAttempts_zero]
    simp
  | succ fuel ih =>
    intro fs tr
    rcases hdl : env.download url (attempts - fuel) with exc | content
    · rw [runAttempts_succ_err env algo expected url artifact ctx attempts fuel
        fs tr exc hdl]
      by_cases hle : attempts ≤ attempts - fuel
      · refine ⟨1, by omega, ?_⟩
        rw [if_pos hle]
        simp [List.replicate]
      · obtain ⟨m, hm, htr⟩ := ih (fsErase fs artifact) (tr ++ [artifact])
        refine ⟨m + 1, by omega, ?_⟩
        rw [if_neg hle, htr]
        simp [List.replicate_succ]
    · rw [runAttempts_succ_ok env algo expected url artifact ctx attempts fuel
        fs tr content hdl]
      by_cases hne : lowerStr (env.digest algo content) ≠ expected
      · rw [if_pos hne]
        by_cases hle : attempts ≤ attempts - fuel
        · refine ⟨1, by omega, ?_⟩
          rw [if_pos hle]
          simp [List.replicate]
        · obtain ⟨m, hm, htr⟩ := ih (fsErase (fsSet fs artifact content) artifact)
            (tr ++ [artifact])
          refine ⟨m + 1, by omega, ?_⟩
          rw [if_neg hle, htr]
          simp [List.replicate_succ]
      · refine ⟨1, by omega, ?_⟩
        rw [if_neg hne]
        simp [List.replicate]

theorem runAttempts_error_shape (env : Env) (algo expected url artifact : String)
    (ctx : ReleaseContext) (attempts : Nat) :
    ∀ (fuel : Nat) (fs : FS) (tr : List String) (e : String) (fs2 : FS)
      (tr2 : List String),
    runAttempts env algo expected url artifact ctx attempts fuel fs tr
      = (Except.error e, fs2, tr2) →
    ∃ inner, e = exhaustMsg ctx.distro ctx.release artifact attempts inner := by
  intro fuel
  induction fuel with
  | zero =>
    intro fs tr e fs2 tr2 h
    rw [runAttempts_zero] at h
    simp at h
  | succ fuel ih =>
    intro fs tr e fs2 tr2 h
    rcases hdl : env.download url (attempts - fuel) with exc | content
    · rw [runAttempts_succ_err env algo expected url artifact ctx attempts fuel
        fs tr exc hdl] at h
      by_cases hle : attempts ≤ attempts - fuel
      · rw [if_pos hle] at h
        simp only [Prod.mk.injEq, Except.error.injEq] at h
        exact ⟨fetchFailMsg url exc, h.1.symm⟩
      · rw [if_neg hle] at h
        exact ih _ _ _ _ _ h
    · rw [runAttempts_succ_ok env algo expected url artifact ctx attempts fuel
        fs tr content hdl] at h
      by_cases hne : lowerStr (env.digest algo content) ≠ expected
      · rw [if_pos hne] at h
        by_cases hle : attempts ≤ attempts - fuel
        · rw [if_pos hle] at h
          simp only [Prod.mk.injEq, Except.error.injEq] at h
          exact ⟨mismatchMsg artifact expected (env.digest algo content), h.1.symm⟩
        · rw [if_neg hle] at h
          exact ih _ _ _ _ _ h
      · rw [if_neg hne] at h
        simp at h

theorem runAttempts_allfail (env : Env) (algo expected url artifact : String)
    (ctx : ReleaseContext) (attempts : Nat)
    (hfail : ∀ (k : Nat) (c : String), env.download url k = Except.ok c →
      lowerStr (env.digest algo c) ≠ expected) :
    ∀ (fuel : Nat) (fs : FS) (tr : List String), 1 ≤ fuel → fuel ≤ attempts →
    ∃ inner fs2,
      runAttempts env algo expected url artifact ctx attempts fuel fs tr
        = (Except.error (exhaustMsg ctx.distro ctx.release artifact attempts inner),
            fs2, tr ++ List.replicate fuel artifact) := by
  intro fuel
  induction fuel with
  | zero =>
    intro fs tr h1 _
    exact absurd h1 (by omega)
  | succ fuel ih =>
    intro fs tr _ h2
    by_cases hf0 : fuel = 0
    · subst hf0
      have hle : attempts ≤ attempts - 0 := by omega
      rcases hdl : env.download url (attempts - 0) with exc | content
      · refine ⟨fetchFailMsg url exc, fs, ?_⟩
        rw [runAttempts_succ_err env algo expected url artifact ctx attempts 0
          fs tr exc hdl, if_pos hle]
        simp [List.replicate]
      · have hne := hfail _ _ hdl
        refine ⟨mismatchMsg artifact expected (env.digest algo content),
          fsSet fs artifact content, ?_⟩
        rw [runAttempts_succ_ok env algo expected url artifact ctx attempts 0
          fs tr content hdl, if_pos hne, if_pos hle]
        simp [List.replicate]
    · have hlt : ¬ (attempts ≤ attempts - fuel) := by omega
      rcases hdl : env.download url (attempts - fuel) with exc | content
      · obtain ⟨inner, fs2, hrec⟩ := ih (fsErase fs artifact) (tr ++ [artifact])
          (by omega) (by omega)
        refine ⟨inner, fs2, ?_⟩
        rw [runAttempts_succ_err env algo expected url artifact ctx attempts fuel
          fs tr exc hdl, if_neg hlt, hrec]
        simp [List.replicate_succ]
      · have hne := hfail _ _ hdl
        obtain ⟨inner, fs2, hrec⟩ := ih
          (fsErase (fsSet fs artifact content) artifact) (tr ++ [artifact])
          (by omega) (by omega)
        refine ⟨inner, fs2, ?_⟩
        rw [runAttempts_succ_ok env algo expected url artifact ctx attempts fuel
          fs tr content hdl, if_pos hne, if_neg hlt, hrec]
        simp [List.replicate_succ]

theorem runAttempts_ok_verified (env : Env) (algo expected url artifact : String)
    (ctx : ReleaseContext) (attempts : Nat) :
    ∀ (fuel : Nat) (fs : FS) (tr : List String) (fs2 : FS) (tr2 : List String),
    1 ≤ fuel →
    runAttempts env algo expected url artifact ctx attempts fuel fs tr
      = (Except.ok (), fs2, tr2) →
    ∃ (k : Nat) (c : String), env.download url k = Except.ok c
      ∧ lowerStr (env.digest algo c) = expected := by
  intro fuel
  induction fuel with
  | zero =>
    intro fs tr fs2 tr2 h1 _
    exact absurd h1 (by omega)
  | succ fuel ih =>
    intro fs tr fs2 tr2 _ h
    rcases hdl : env.download url (attempts - fuel) with exc | content
    · rw [runAttempts_succ_err env algo expected url artifact ctx attempts fuel
        fs tr exc hdl] at h
      by_cases hle : attempts ≤ attempts - fuel
      · rw [if_pos hle] at h
        simp at h
      · rw [if_neg hle] at h
        have hf1 : 1 ≤ fuel := by omega
        exact ih _ _ _ _ hf1 h
    · rw [runAttempts_succ_ok env algo expected url artifact ctx attempts fuel
        fs tr content hdl] at h
      by_cases hne : lowerStr (env.digest algo content) ≠ expected
      · rw [if_pos hne] at h
        by_cases hle : attempts ≤ attempts - fuel
        · rw [if_pos hle] at h
          simp at h
        · rw [if_neg hle] at h
          have hf1 : 1 ≤ fuel := by omega
          exact ih _ _ _ _ hf1 h
      · exact ⟨attempts - fuel, content, hdl, not_not.mp hne⟩

theorem syncArtifacts_fs_other (env : Env) (algo : String) (checksums : Dict)
    (ctx : ReleaseContext) (attempts : Nat) :
    ∀ (L : List String) (fs : FS) (tr : List String) (k : String), k ∉ L →
    fsGet? ((syncArtifacts env algo checksums ctx attempts L fs tr).2.1) k
      = fsGet? fs k := by
  intro L
  induction L with
  | nil =>
    intro fs tr k _
    rfl
  | cons a rest ih =>
    intro fs tr k hk
    have hka : k ≠ a := fun he => hk (he ▸ List.mem_cons_self a rest)
    have hkr : k ∉ rest := fun hm => hk (List.mem_cons_of_mem a hm)
    rcases hdg : dictGet? checksums a with _ | dg
    · rw [syncArtifacts_cons_none env algo checksums ctx attempts a rest fs tr hdg]
    · have hother := runAttempts_fs_other env algo (lowerStr dg)
        (artifact_url ctx a) a ctx attempts attempts fs tr k hka
      rcases hr : runAttempts env algo (lowerStr dg) (artifact_url ctx a) a ctx
          attempts attempts fs tr with ⟨res, fsx, trx⟩
      rw [hr] at hother
      cases res with
      | error e =>
        rw [syncArtifacts_cons_err env algo checksums ctx attempts a rest fs tr
          dg e fsx trx hdg hr]
        exact hother
      | ok u =>
        rw [syncArtifacts_cons_ok env algo checksums ctx attempts a rest fs tr
          dg u fsx trx hdg hr]
        rw [ih fsx trx k hkr]
        exact hother

theorem syncArtifacts_ok_verified (env : Env) (algo : String) (checksums : Dict)
    (ctx : ReleaseContext) (attempts : Nat) (hatt : 1 ≤ attempts) :
    ∀ (L : List String) (fs : FS) (tr : List String) (fs2 : FS)
      (tr2 : List String),
    syncArtifacts env algo checksums ctx attempts L fs tr
      = (Except.ok (), fs2, tr2) →
    ∀ a ∈ L, ∃ (dg : String) (k : Nat) (c : String),
      dictGet? checksums a = some dg
      ∧ env.download (artifact_url ctx a) k = Except.ok c
      ∧ lowerStr (env.digest algo c) = lowerStr dg := by
  intro L
  induction L with
  | nil =>
    intro fs tr fs2 tr2 _ a ha
    exact absurd ha (List.not_mem_nil a)
  | cons b rest ih =>
    intro fs tr fs2 tr2 h a ha
    rcases hdg : dictGet? checksums b with _ | dg
    · rw [syncArtifacts_cons_none env algo checksums ctx attempts b rest fs tr
        hdg] at h
      simp at h
    · rcases hr : runAttempts env algo (lowerStr dg) (artifact_url ctx b) b ctx
          attempts attempts fs tr with ⟨res, fsx, trx⟩
      cases res with
      | error e =>
        rw [syncArtifacts_cons_err env algo checksums ctx attempts b rest fs tr
          dg e fsx trx hdg hr] at h
        simp at h
      | ok u =>
        rw [syncArtifacts_cons_ok env algo checksums ctx attempts b rest fs tr
          dg u fsx trx hdg hr] at h
        rcases List.mem_cons.mp ha with rfl | hmem
        · cases u
          obtain ⟨k, c, hdl, hv⟩ := runAttempts_ok_verified env algo
            (lowerStr dg) (artifact_url ctx a) a ctx attempts attempts fs tr
            fsx trx hatt hr
          exact ⟨dg, k, c, hdg, hdl, hv⟩
        · exact ih fsx trx fs2 tr2 h a hmem

/-! Step equations for the stages of `sync_release`. -/

theorem sync_release_fetch_err (env : Env) (ctx : ReleaseContext)
    (attempts : Nat) (fs : FS) (exc : String)
    (hf : env.fetch (checksum_url ctx) = Except.error exc) :
    sync_release env ctx attempts fs
      = (Except.error (fetchFailMsg (checksum_url ctx) exc), fs, []) := by
  simp only [sync_release, hf]

theorem sync_release_fetch_ok (env : Env) (ctx : ReleaseContext)
    (attempts : Nat) (fs : FS) (text : String)
    (hf : env.fetch (checksum_url ctx) = Except.ok text) :
    sync_release env ctx attempts fs = syncAfterFetch env ctx attempts fs text := by
  simp only [sync_release, hf]

theorem syncAfterFetch_detect_err (env : Env) (ctx : ReleaseContext)
    (attempts : Nat) (fs : FS) (text e : String)
    (hd : detect_hash_algorithm ctx.checksum_file = Except.error e) :
    syncAfterFetch env ctx attempts fs text = (Except.error e, fs, []) := by
  simp only [syncAfterFetch, hd]

theorem syncAfterFetch_detect_ok (env : Env) (ctx : ReleaseContext)
    (attempts : Nat) (fs : FS) (text algo : String)
    (hd : detect_hash_algorithm ctx.checksum_file = Except.ok algo) :
    syncAfterFetch env ctx attempts fs text
      = syncWithAlgo env ctx attempts fs text algo := by
  simp only [syncAfterFetch, hd]

theorem syncWithAlgo_missing (env : Env) (ctx : ReleaseContext) (attempts : Nat)
    (fs : FS) (text algo : String)
    (hm : ctx.artifacts.filter
      (fun a => (dictGet? (parse_checksums text) a).isNone) ≠ []) :
    syncWithAlgo env ctx attempts fs text algo
      = (Except.error (missingMsg ctx.distro ctx.release (ctx.artifacts.filter
          (fun a => (dictGet? (parse_checksums text) a).isNone))), fs, []) := by
  simp only [syncWithAlgo]
  rw [if_neg hm]

theorem syncWithAlgo_uptodate (env : Env) (ctx : ReleaseContext) (attempts : Nat)
    (fs : FS) (text algo : String)
    (hm : ctx.artifacts.filter
      (fun a => (dictGet? (parse_checksums text) a).isNone) = [])
    (hmk : fsGet? fs "remote-checksum" = some text) :
    syncWithAlgo env ctx attempts fs text algo = (Except.ok false, fs, []) := by
  simp only [syncWithAlgo]
  rw [if_pos hm, if_pos hmk]

theorem syncWithAlgo_downloads (env : Env) (ctx : ReleaseContext) (attempts : Nat)
    (fs : FS) (text algo : String)
    (hm : ctx.artifacts.filter
      (fun a => (dictGet? (parse_checksums text) a).isNone) = [])
    (hmk : ¬ fsGet? fs "remote-checksum" = some text) :
    syncWithAlgo env ctx attempts fs text algo
      = syncDownloads env ctx attempts fs text algo := by
  simp only [syncWithAlgo]
  rw [if_pos hm, if_neg hmk]

theorem syncDownloads_err (env : Env) (ctx : ReleaseContext) (attempts : Nat)
    (fs : FS) (text algo e : String) (fs2 : FS) (tr : List String)
    (hr : syncArtifacts env algo (parse_checksums text) ctx attempts
      ctx.artifacts fs [] = (Except.error e, fs2, tr)) :
    syncDownloads env ctx attempts fs text algo = (Except.error e, fs2, tr) := by
  simp only [syncDownloads, hr]

theorem syncDownloads_ok (env : Env) (ctx : ReleaseContext) (attempts : Nat)
    (fs : FS) (text algo : String) (u : Unit) (fs2 : FS) (tr : List String)
    (hr : syncArtifacts env algo (parse_checksums text) ctx attempts
      ctx.artifacts fs [] = (Except.ok u, fs2, tr)) :
    syncDownloads env ctx attempts fs text algo
      = (Except.ok true,
          fsSet (fsErase (fsSet fs2 "remote-checksum.tmp" text)
            "remote-checksum.tmp") "remote-checksum" text, tr) := by
  simp only [syncDownloads, hr]

/-- C2 counterexample: the claim asserts that whenever the marker exists and
equals the freshly fetched manifest, `sync_release` returns False with zero
downloads.  With a checksum filename naming no hash algorithm, the algorithm
detection raises first even though the marker matches the fetched text, so
the run does not return False. -/
theorem c2_not_false_on_undetectable_algo_cex :
    envTextT.fetch (checksum_url ctxSums) = Except.ok "T"
    ∧ fsGet? fsMarkerT "remote-checksum" = some "T"
    ∧ sync_release envTextT ctxSums 3 fsMarkerT
        = (Except.error ("Cannot determine hash algorithm from checksum file "
            ++ sq ++ "SUMS" ++ sq), fsMarkerT, [])
    ∧ (sync_release envTextT ctxSums 3 fsMarkerT).1 ≠ Except.ok false := by
  refine ⟨rfl, rfl, rfl, ?_⟩
  have heq : (sync_release envTextT ctxSums 3 fsMarkerT).1
      = Except.error ("Cannot determine hash algorithm from checksum file "
          ++ sq ++ "SUMS" ++ sq) := rfl
  rw [heq]
  simp

/-- C2 (amended): when the manifest fetch succeeds, the hash algorithm is
detectable from the checksum filename, and no configured artifact is missing
from the parsed manifest, then a marker file whose content is byte-identical
to the fetched manifest text makes `sync_release` report no update (return
False) with zero download attempts and the directory state unchanged, so a
re-run under the same remote state is a no-op. -/
theorem c2_idempotent_no_update :
    ∀ (env : Env) (ctx : ReleaseContext) (attempts : Nat) (fs : FS)
      (text algo : String),
    env.fetch (checksum_url ctx) = Except.ok text →
    detect_hash_algorithm ctx.checksum_file = Except.ok algo →
    ctx.artifacts.filter (fun a => (dictGet? (parse_checksums text) a).isNone) = [] →
    fsGet? fs "remote-checksum" = some text →
    sync_release env ctx attempts fs = (Except.ok false, fs, []) := by
  intro env ctx attempts fs text algo hf hd hm hmk
  rw [sync_release_fetch_ok env ctx attempts fs text hf,
    syncAfterFetch_detect_ok env ctx attempts fs text algo hd,
    syncWithAlgo_uptodate env ctx attempts fs text algo hm hmk]

/-- C2 witness: the amended theorem applied to a release whose marker
already holds the fetched manifest text. -/
theorem c2_idempotent_no_update_witness :
    sync_release envManifestF ctxUpToDate 3 fsMarkerF
      = (Except.ok false, fsMarkerF, []) :=
  c2_idempotent_no_update envManifestF ctxUpToDate 3 fsMarkerF "aa f\n" "sha256"
    rfl rfl rfl rfl

/-- C4 counterexample: the claim asserts that a configured artifact absent
from the parsed manifest makes `sync_release` fail with a `SyncError` listing
all the missing names.  When the checksum filename names no hash algorithm,
the algorithm detection failure preempts the missing-entry check and the
raised message does not mention the missing artifact at all. -/
theorem c4_detect_error_preempts_cex :
    (dictGet? (parse_checksums "") "zzz.img").isNone = true
    ∧ sync_release envEmptyManifest ctxSumsMissing 3 []
        = (Except.error ("Cannot determine hash algorithm from checksum file "
            ++ sq ++ "SUMS" ++ sq), [], [])
    ∧ pyIn "zzz.img" ("Cannot determine hash algorithm from checksum file "
        ++ sq ++ "SUMS" ++ sq) = false := by
  exact ⟨rfl, rfl, by decide⟩

/-- C4 (amended): when the manifest fetch succeeds and the hash algorithm is
detectable from the checksum filename, any configured artifact missing from
the parsed manifest makes `sync_release` fail with the `SyncError` listing
all missing names (in configured order), before any download is started and
with the directory state unchanged. -/
theorem c4_missing_entries_before_downloads :
    ∀ (env : Env) (ctx : ReleaseContext) (attempts : Nat) (fs : FS)
      (text algo : String),
    env.fetch (checksum_url ctx) = Except.ok text →
    detect_hash_algorithm ctx.checksum_file = Except.ok algo →
    ctx.artifacts.filter (fun a => (dictGet? (parse_checksums text) a).isNone) ≠ [] →
    sync_release env ctx attempts fs
      = (Except.error (missingMsg ctx.distro ctx.release (ctx.artifacts.filter
          (fun a => (dictGet? (parse_checksums text) a).isNone))), fs, []) := by
  intro env ctx attempts fs text algo hf hd hm
  rw [sync_release_fetch_ok env ctx attempts fs text hf,
    syncAfterFetch_detect_ok env ctx attempts fs text algo hd,
    syncWithAlgo_missing env ctx attempts fs text algo hm]

/-- C4 witness: the amended theorem applied to a release requiring an
artifact the fetched manifest does not mention. -/
theorem c4_missing_entries_before_downloads_witness :
    sync_release envEmptyManifest ctxMissing 3 []
      = (Except.error (missingMsg "d" "r" ["zzz.img"]), [], []) :=
  c4_missing_entries_before_downloads envEmptyManifest ctxMissing 3 [] ""
    "sha256" rfl rfl (by decide)

/-- C1 counterexample: the claim asserts that every `sync_release` run that
raises a `SyncError` leaves the marker file exactly as before the run.  When
a configured artifact is itself named `remote-checksum`, its verified
download is written at the marker path; a later artifact failure then raises
with the marker changed (here: created, where it was absent before). -/
theorem c1_marker_changed_on_failure_cex :
    fsGet? ([] : FS) "remote-checksum" = none
    ∧ sync_release envMarkerArt ctxMarkerArt 1 []
        = (Except.error (exhaustMsg "d" "r" "b" 1
            (fetchFailMsg "http://h/r//b" "boom")),
            [("remote-checksum", "C1content")], ["remote-checksum", "b"])
    ∧ fsGet? [("remote-checksum", "C1content")] "remote-checksum"
        = some "C1content" := by
  exact ⟨rfl, rfl, rfl⟩

/-- C1 (amended): provided the attempt budget is positive (the CLI validates
this) and no configured artifact is itself named `remote-checksum`: a run
that raises a `SyncError` at any step leaves the marker entry exactly as it
was before the run (unchanged, or still absent); a no-update run leaves the
whole directory state unchanged; and a run that reports updated has
rewritten the marker with the newly fetched manifest text, and only after
every configured artifact had a download whose content digest matched the
manifest digest case-insensitively. -/
theorem c1_atomic_marker_commit :
    ∀ (env : Env) (ctx : ReleaseContext) (attempts : Nat) (fs : FS),
    1 ≤ attempts →
    "remote-checksum" ∉ ctx.artifacts →
    ((∀ (e : String) (fs2 : FS) (tr : List String),
        sync_release env ctx attempts fs = (Except.error e, fs2, tr) →
        fsGet? fs2 "remote-checksum" = fsGet? fs "remote-checksum")
     ∧ (∀ (fs2 : FS) (tr : List String),
          sync_release env ctx attempts fs = (Except.ok false, fs2, tr) →
          fs2 = fs)
     ∧ (∀ (text algo : String) (fs2 : FS) (tr : List String),
          env.fetch (checksum_url ctx) = Except.ok text →
          detect_hash_algorithm ctx.checksum_file = Except.ok algo →
          sync_release env ctx attempts fs = (Except.ok true, fs2, tr) →
          fsGet? fs2 "remote-checksum" = some text
          ∧ ∀ a ∈ ctx.artifacts, ∃ (dg : String) (k : Nat) (c : String),
              dictGet? (parse_checksums text) a = some dg
              ∧ env.download (artifact_url ctx a) k = Except.ok c
              ∧ lowerStr (env.digest algo c) = lowerStr dg)) := by
  intro env ctx attempts fs hatt hnm
  refine ⟨?_, ?_, ?_⟩
  · intro e fs2 tr h
    rcases hf : env.fetch (checksum_url ctx) with exc | text
    · rw [sync_release_fetch_err env ctx attempts fs exc hf] at h
      simp only [Prod.mk.injEq, Except.error.injEq] at h
      rw [← h.2.1]
    · rw [sync_release_fetch_ok env ctx attempts fs text hf] at h
      rcases hd : detect_hash_algorithm ctx.checksum_file with e2 | algo
      · rw [syncAfterFetch_detect_err env ctx attempts fs text e2 hd] at h
        simp only [Prod.mk.injEq, Except.error.injEq] at h
        rw [← h.2.1]
      · rw [syncAfterFetch_detect_ok env ctx attempts fs text algo hd] at h
        by_cases hm : ctx.artifacts.filter
            (fun a => (dictGet? (parse_checksums text) a).isNone) = []
        · by_cases hmk : fsGet? fs "remote-checksum" = some text
          · rw [syncWithAlgo_uptodate env ctx attempts fs text algo hm hmk] at h
            simp at h
          · rw [syncWithAlgo_downloads env ctx attempts fs text algo hm hmk] at h
            have hpres := syncArtifacts_fs_other env algo (parse_checksums text)
              ctx attempts ctx.artifacts fs [] "remote-checksum" hnm
            rcases hr : syncArtifacts env algo (parse_checksums text) ctx
                attempts ctx.artifacts fs [] with ⟨res, fsx, trx⟩
            rw [hr] at hpres
            cases res with
            | error e2 =>
              rw [syncDownloads_err env ctx attempts fs text algo e2 fsx trx hr]
                at h
              simp only [Prod.mk.injEq, Except.error.injEq] at h
              rw [← h.2.1]
              exact hpres
            | ok u =>
              rw [syncDownloads_ok env ctx attempts fs text algo u fsx trx hr]
                at h
              simp at h
        · rw [syncWithAlgo_missing env ctx attempts fs text algo hm] at h
          simp only [Prod.mk.injEq, Except.error.injEq] at h
          rw [← h.2.1]
  · intro fs2 tr h
    rcases hf : env.fetch (checksum_url ctx) with exc | text
    · rw [sync_release_fetch_err env ctx attempts fs exc hf] at h
      simp at h
    · rw [sync_release_fetch_ok env ctx attempts fs text hf] at h
      rcases hd : detect_hash_algorithm ctx.checksum_file with e2 | algo
      · rw [syncAfterFetch_detect_err env ctx attempts fs text e2 hd] at h
        simp at h
      · rw [syncAfterFetch_detect_ok env ctx attempts fs text algo hd] at h
        by_cases hm : ctx.artifacts.filter
            (fun a => (dictGet? (parse_checksums text) a).isNone) = []
        · by_cases hmk : fsGet? fs "remote-checksum" = some text
          · rw [syncWithAlgo_uptodate env ctx attempts fs text algo hm hmk] at h
            simp only [Prod.mk.injEq, Except.ok.injEq] at h
            rw [← h.2.1]
          · rw [syncWithAlgo_downloads env ctx attempts fs text algo hm hmk] at h
            rcases hr : syncArtifacts env algo (parse_checksums text) ctx
                attempts ctx.artifacts fs [] with ⟨res, fsx, trx⟩
            cases res with
            | error e2 =>
              rw [syncDownloads_err env ctx attempts fs text algo e2 fsx trx hr]
                at h
              simp at h
            | ok u =>
              rw [syncDownloads_ok env ctx attempts fs text algo u fsx trx hr]
                at h
              simp at h
        · rw [syncWithAlgo_missing env ctx attempts fs text algo hm] at h
          simp at h
  · intro text algo fs2 tr hf hd h
    rw [sync_release_fetch_ok env ctx attempts fs text hf] at h
    rw [syncAfterFetch_detect_ok env ctx attempts fs text algo hd] at h
    by_cases hm : ctx.artifacts.filter
        (fun a => (dictGet? (parse_checksums text) a).isNone) = []
    · by_cases hmk : fsGet? fs "remote-checksum" = some text
      · rw [syncWithAlgo_uptodate env ctx attempts fs text algo hm hmk] at h
        simp at h
      · rw [syncWithAlgo_downloads env ctx attempts fs text algo hm hmk] at h
        rcases hr : syncArtifacts env algo (parse_checksums text) ctx attempts
            ctx.artifacts fs [] with ⟨res, fsx, trx⟩
        cases res with
        | error e2 =>
          rw [syncDownloads_err env ctx attempts fs text algo e2 fsx trx hr] at h
          simp at h
        | ok u =>
          rw [syncDownloads_ok env ctx attempts fs text algo u fsx trx hr] at h
          simp only [Prod.mk.injEq, Except.ok.injEq] at h
          constructor
          · rw [← h.2.1]
            exact fsGet?_set_self _ "remote-checksum" text
          · intro a ha
            cases u
            exact syncArtifacts_ok_verified env algo (parse_checksums text) ctx
              attempts hatt ctx.artifacts fs [] fsx trx hr a ha
    · rw [syncWithAlgo_missing env ctx attempts fs text algo hm] at h
      simp at h

/-- C1 witness: the amended theorem applied to a run whose manifest fetch
fails: the marker entry after the run equals the marker entry before it. -/
theorem c1_atomic_marker_commit_witness :
    fsGet? (sync_release envFetchDown ctxPlain 3 fsMarkerT).2.1 "remote-checksum"
      = fsGet? fsMarkerT "remote-checksum" :=
  (c1_atomic_marker_commit envFetchDown ctxPlain 3 fsMarkerT (by omega)
    (by decide)).1 (fetchFailMsg (checksum_url ctxPlain) "down") fsMarkerT [] rfl

/-- C9 counterexample: the claim asserts the unverified file is deleted on
every failed attempt, including the budget-exhausting one.  With a budget of
one attempt and a digest mismatch, `sync_release` raises while the
unverified downloaded content is still in place at the destination: the
raise happens before the unlink, which only runs when a retry follows. -/
theorem c9_unverified_file_left_cex :
    sync_release envMismatch ctxOneA 1 []
      = (Except.error (exhaustMsg "d" "r" "a" 1 (mismatchMsg "a" "ff" "00")),
          [("a", "BAD")], ["a"])
    ∧ fsGet? [("a", "BAD")] "a" = some "BAD"
    ∧ lowerStr (envMismatch.digest "sha256" "BAD") ≠ "ff" := by
  exact ⟨rfl, rfl, by decide⟩

/-- C9 (amended): on every failed attempt that is followed by another
attempt (the attempt is not the last of the budget), the destination file is
deleted before the retry, for both failure kinds; on the budget-exhausting
attempt the `SyncError` is raised without deleting: after a final digest
mismatch the unverified downloaded content remains at the destination, and
after a final download error the destination keeps its prior state
(`download_file` removed only its temporary file). -/
theorem c9_cleanup_amended :
    (∀ (env : Env) (algo expected url artifact : String) (ctx : ReleaseContext)
        (attempts fuel : Nat) (fs : FS) (tr : List String) (exc : String),
      1 ≤ fuel → fuel + 1 ≤ attempts →
      env.download url (attempts - fuel) = Except.error exc →
      runAttempts env algo expected url artifact ctx attempts (fuel + 1) fs tr
        = runAttempts env algo expected url artifact ctx attempts fuel
            (fsErase fs artifact) (tr ++ [artifact])
      ∧ fsGet? (fsErase fs artifact) artifact = none)
    ∧ (∀ (env : Env) (algo expected url artifact : String)
        (ctx : ReleaseContext) (attempts fuel : Nat) (fs : FS)
        (tr : List String) (content : String),
      1 ≤ fuel → fuel + 1 ≤ attempts →
      env.download url (attempts - fuel) = Except.ok content →
      lowerStr (env.digest algo content) ≠ expected →
      runAttempts env algo expected url artifact ctx attempts (fuel + 1) fs tr
        = runAttempts env algo expected url artifact ctx attempts fuel
            (fsErase (fsSet fs artifact content) artifact) (tr ++ [artifact])
      ∧ fsGet? (fsErase (fsSet fs artifact content) artifact) artifact = none)
    ∧ (∀ (env : Env) (algo expected url artifact : String)
        (ctx : ReleaseContext) (attempts : Nat) (fs : FS) (tr : List String)
        (content : String),
      env.download url attempts = Except.ok content →
      lowerStr (env.digest algo content) ≠ expected →
      runAttempts env algo expected url artifact ctx attempts 1 fs tr
        = (Except.error (exhaustMsg ctx.distro ctx.release artifact attempts
            (mismatchMsg artifact expected (env.digest algo content))),
            fsSet fs artifact content, tr ++ [artifact])
      ∧ fsGet? (fsSet fs artifact content) artifact = some content)
    ∧ (∀ (env : Env) (algo expected url artifact : String)
        (ctx : ReleaseContext) (attempts : Nat) (fs : FS) (tr : List String)
        (exc : String),
      env.download url attempts = Except.error exc →
      runAttempts env algo expected url artifact ctx attempts 1 fs tr
        = (Except.error (exhaustMsg ctx.distro ctx.release artifact attempts
            (fetchFailMsg url exc)), fs, tr ++ [artifact])) := by
  refine ⟨?_, ?_, ?_, ?_⟩
  · intro env algo expected url artifact ctx attempts fuel fs tr exc h1 h2 hdl
    have hlt : ¬ (attempts ≤ attempts - fuel) := by omega
    constructor
    · rw [runAttempts_succ_err env algo expected url artifact ctx attempts fuel
        fs tr exc hdl, if_neg hlt]
    · exact fsGet?_erase_self fs artifact
  · intro env algo expected url artifact ctx attempts fuel fs tr content h1 h2
      hdl hne
    have hlt : ¬ (attempts ≤ attempts - fuel) := by omega
    constructor
    · rw [runAttempts_succ_ok env algo expected url artifact ctx attempts fuel
        fs tr content hdl, if_pos hne, if_neg hlt]
    · exact fsGet?_erase_self (fsSet fs artifact content) artifact
  · intro env algo expected url artifact ctx attempts fs tr content hdl hne
    have hdl0 : env.download url (attempts - 0) = Except.ok content := by
      rw [Nat.sub_zero]
      exact hdl
    have hle : attempts ≤ attempts - 0 := by omega
    constructor
    · rw [runAttempts_succ_ok env algo expected url artifact ctx attempts 0
        fs tr content hdl0, if_pos hne, if_pos hle]
    · exact fsGet?_set_self fs artifact content
  · intro env algo expected url artifact ctx attempts fs tr exc hdl
    have hdl0 : env.download url (attempts - 0) = Except.error exc := by
      rw [Nat.sub_zero]
      exact hdl
    have hle : attempts ≤ attempts - 0 := by omega
    rw [runAttempts_succ_err env algo expected url artifact ctx attempts 0
      fs tr exc hdl0, if_pos hle]

/-- C9 witness: the amended theorem applied to the one-attempt mismatch run:
the raise leaves the unverified content in place. -/
theorem c9_cleanup_amended_witness :
    runAttempts envMismatch "sha256" "ff" (artifact_url ctxOneA "a") "a"
        ctxOneA 1 1 [] []
      = (Except.error (exhaustMsg "d" "r" "a" 1 (mismatchMsg "a" "ff" "00")),
          [("a", "BAD")], ["a"])
    ∧ fsGet? [("a", "BAD")] "a" = some "BAD" :=
  c9_cleanup_amended.2.2.1 envMismatch "sha256" "ff" (artifact_url ctxOneA "a")
    "a" ctxOneA 1 [] [] "BAD" rfl (by decide)

/-- C3: for every artifact the retry loop makes at most the budgeted number
of download attempts (the trace grows by at most `fuel` entries, all naming
that artifact); every terminal error of the loop is the exhaustion error
naming the artifact and the full attempt count, so a failed attempt still
inside the budget never escalates; and when every attempt of the budget
fails (download error or digest mismatch), the artifact loop stops with the
exhaustion error after exactly `attempts` download attempts of that
artifact, never starting a later artifact. -/
theorem c3_retry_budget_fail_fast :
    (∀ (env : Env) (algo expected url artifact : String) (ctx : ReleaseContext)
        (attempts fuel : Nat) (fs : FS) (tr : List String),
      ∃ m, m ≤ fuel
        ∧ (runAttempts env algo expected url artifact ctx attempts fuel
            fs tr).2.2 = tr ++ List.replicate m artifact)
    ∧ (∀ (env : Env) (algo expected url artifact : String)
        (ctx : ReleaseContext) (attempts fuel : Nat) (fs : FS)
        (tr : List String) (e : String) (fs2 : FS) (tr2 : List String),
      runAttempts env algo expected url artifact ctx attempts fuel fs tr
        = (Except.error e, fs2, tr2) →
      ∃ inner, e = exhaustMsg ctx.distro ctx.release artifact attempts inner)
    ∧ (∀ (env : Env) (algo : String) (checksums : Dict) (ctx : ReleaseContext)
        (attempts : Nat) (a : String) (rest : List String) (dg : String)
        (fs : FS) (tr : List String),
      1 ≤ attempts →
      dictGet? checksums a = some dg →
      (∀ (k : Nat) (c : String),
        env.download (artifact_url ctx a) k = Except.ok c →
        lowerStr (env.digest algo c) ≠ lowerStr dg) →
      ∃ inner fs2,
        syncArtifacts env algo checksums ctx attempts (a :: rest) fs tr
          = (Except.error (exhaustMsg ctx.distro ctx.release a attempts inner),
              fs2, tr ++ List.replicate attempts a)) := by
  refine ⟨?_, ?_, ?_⟩
  · intro env algo expected url artifact ctx attempts fuel fs tr
    exact runAttempts_trace env algo expected url artifact ctx attempts fuel fs tr
  · intro env algo expected url artifact ctx attempts fuel fs tr e fs2 tr2 h
    exact runAttempts_error_shape env algo expected url artifact ctx attempts
      fuel fs tr e fs2 tr2 h
  · intro env algo checksums ctx attempts a rest dg fs tr hatt hdg hfail
    obtain ⟨inner, fs2, hrec⟩ := runAttempts_allfail env algo (lowerStr dg)
      (artifact_url ctx a) a ctx attempts hfail attempts fs tr hatt
      (Nat.le_refl attempts)
    refine ⟨inner, fs2, ?_⟩
    rw [syncArtifacts_cons_err env algo checksums ctx attempts a rest fs tr dg
      (exhaustMsg ctx.distro ctx.release a attempts inner) fs2
      (tr ++ List.replicate attempts a) hdg hrec]

/-- C3 witness: the theorem applied to a two-artifact release whose first
artifact never verifies with a budget of two attempts: the loop fails with
the exhaustion message for the first artifact after exactly two recorded
attempts, and the second artifact never appears in the trace. -/
theorem c3_retry_budget_fail_fast_witness :
    ∃ inner fs2,
      syncArtifacts envBadDigest "sha256" [("a", "FF")] ctxPlain 2 ["a", "b"]
          [] []
        = (Except.error (exhaustMsg "d" "r" "a" 2 inner), fs2,
            [] ++ List.replicate 2 "a") := by
  have hfail : ∀ (k : Nat) (c : String),
      envBadDigest.download (artifact_url ctxPlain "a") k = Except.ok c →
      lowerStr (envBadDigest.digest "sha256" c) ≠ lowerStr "FF" := by
    intro k c hc
    have hc2 : (Except.ok "X" : Except String String) = Except.ok c := hc
    cases hc2
    decide
  exact c3_retry_budget_fail_fast.2.2 envBadDigest "sha256" [("a", "FF")]
    ctxPlain 2 "a" ["b"] "FF" [] [] (by omega) rfl hfail

end SyncImages
